import Mathlib

/-!
# Verification of the ttbud real-time token-board server

Shallow embedding of the core of the repository: the offline migration tool
(`bin/migrate.py`), the room stores (`src/room_store.py`), the websocket
connection manager (`src/api/wsmanager.py`), and the game state server
(`src/game_state_server.py`).  Python strings are modelled as `List Char`,
Python ints as `Int`/`Nat`, dicts as insertion-ordered association lists,
and raising code as `Except`-valued functions.
-/

namespace TTBud

/-! ## Colors and game components

`Color` mirrors `src/colors.py`'s RGB dataclass (only its shape is needed).
`Token`, `Ping` and token contents mirror `src/game_components.py`, which is
not part of the sources given; the shapes are taken from the wire-protocol
description of the spec and from the constructors used in `bin/migrate.py`
and the tests. -/

structure Color where
  red : Nat
  green : Nat
  blue : Nat
deriving DecidableEq, Repr

inductive TokenContents where
  /-- `IconTokenContents(icon_id)` -/
  | icon (icon_id : String)
  /-- `TextTokenContents(text)` -/
  | text (t : String)
deriving DecidableEq, Repr

/-- `Token` from `src/game_components.py` (V2 shape): id, kind discriminator,
polymorphic contents, integer bounds and an optional color. -/
structure Token where
  id : String
  type : String
  contents : TokenContents
  start_x : Int
  start_y : Int
  start_z : Int
  end_x : Int
  end_y : Int
  end_z : Int
  color_rgb : Option Color
deriving DecidableEq, Repr

/-- `Ping` from `src/game_components.py`: id and integer position. -/
structure Ping where
  id : String
  x : Int
  y : Int
deriving DecidableEq, Repr

/-! ## Migration tool (`bin/migrate.py`) -/

/-- `V1Token` dataclass from `bin/migrate.py` lines 14-25. -/
structure V1Token where
  id : String
  type : String
  icon_id : String
  start_x : Int
  start_y : Int
  start_z : Int
  end_x : Int
  end_y : Int
  end_z : Int
  color_rgb : Option Color
deriving DecidableEq, Repr

/-- `v1_to_v2` from `bin/migrate.py` lines 28-40, field for field.  Note that
line 36 of the source reads `end_x=old.start_x`. -/
def v1_to_v2 (old : V1Token) : Token :=
  { id := old.id
    type := old.type
    contents := TokenContents.icon old.icon_id
    start_x := old.start_x
    start_y := old.start_y
    start_z := old.start_z
    end_x := old.start_x
    end_y := old.end_y
    end_z := old.end_z
    color_rgb := old.color_rgb }

/-- A concrete legacy token whose `start_x` and `end_x` differ. -/
def sampleV1Token : V1Token :=
  { id := "t1"
    type := "character"
    icon_id := "icon7"
    start_x := 0
    start_y := 1
    start_z := 2
    end_x := 5
    end_y := 3
    end_z := 4
    color_rgb := some ⟨255, 0, 0⟩ }

/-! ## Liveness maintenance loop (`src/api/wsmanager.py` lines 76-93)

`SERVER_LIVENESS_EXPIRATION_SECONDS` is imported from
`src/rate_limit/rate_limit.py`, which is not among the sources; its numeric
value is therefore kept as a parameter `expiration`.  The loop computes
`max_refresh_offset = expiration / 16`, draws
`refresh_offset ∈ [-max_refresh_offset, max_refresh_offset]` uniformly, and
sleeps `expiration / 3 + refresh_offset`. -/

/-- `max_refresh_offset = SERVER_LIVENESS_EXPIRATION_SECONDS / 16`
(`wsmanager.py` line 86). -/
def max_refresh_offset (expiration : ℚ) : ℚ := expiration / 16

/-- The argument of `asyncio.sleep` on `wsmanager.py` lines 91-93:
`(SERVER_LIVENESS_EXPIRATION_SECONDS / 3) + refresh_offset`. -/
def liveness_sleep_interval (expiration refresh_offset : ℚ) : ℚ :=
  expiration / 3 + refresh_offset

/-! ## Legacy room store (`src/room_store.py`)

Room data is a Python dict/list, opaque here (`α`).  A raised Python
exception is modelled with `Except`; a function that can both `return None`
and raise returns `Except PyError (Option α)`, where `Except.ok none` is a
plain `None` return. -/

inductive PyError where
  /-- `KeyError` raised by `dict.__getitem__`. -/
  | keyError (key : String)
  /-- `FileNotFoundError` raised by `open(path, 'r')` on a missing file. -/
  | fileNotFound (path : String)
deriving DecidableEq, Repr

/-- `MemoryRoomStore` (`room_store.py` lines 54-69): `stored_data` is a dict
from room id to room data, modelled as an association list. -/
structure MemoryRoomStore (α : Type) where
  path : String
  stored_data : List (String × α)

/-- `MemoryRoomStore.read_room_data` (`room_store.py` lines 65-66):
`return self.stored_data[room_id]`.  Python dict subscription raises
`KeyError` when the key is absent. -/
def MemoryRoomStore.read_room_data (s : MemoryRoomStore α) (room_id : String) :
    Except PyError (Option α) :=
  match s.stored_data.lookup room_id with
  | some d => Except.ok (some d)
  | none => Except.error (PyError.keyError room_id)

/-- `FileRoomStore` (`room_store.py` lines 27-51): the filesystem is modelled
as an association list from full path to file contents. -/
structure FileRoomStore (α : Type) where
  path : String
  files : List (String × α)

/-- Python's `str.startswith`, stated on the underlying character lists. -/
def pyStartsWith (s pre : String) : Bool :=
  s.data.take pre.data.length == pre.data

/-- `FileRoomStore._is_valid_path` (`room_store.py` lines 35-36):
`os.path.abspath(full_path).startswith(self.path)`.  `os.path.abspath` is
an external library call and is passed in as a function. -/
def FileRoomStore.is_valid_path (abspath : String → String)
    (s : FileRoomStore α) (full_path : String) : Bool :=
  pyStartsWith (abspath full_path) s.path

/-- `FileRoomStore.read_room_data` (`room_store.py` lines 44-48): builds
`full_path = f'{self.path}/{room_id}'`; if the path is valid, opens and
reads the file (raising `FileNotFoundError` when it does not exist);
otherwise falls through and implicitly returns `None`. -/
def FileRoomStore.read_room_data (abspath : String → String)
    (s : FileRoomStore α) (room_id : String) : Except PyError (Option α) :=
  let full_path := s.path ++ "/" ++ room_id
  if s.is_valid_path abspath full_path then
    match s.files.lookup full_path with
    | some d => Except.ok (some d)
    | none => Except.error (PyError.fileNotFound full_path)
  else
    Except.ok none

/-! ## UUID validation (`src/api/wsmanager.py` lines 43-48)

```
def is_valid_uuid(uuid_string: str) -> bool:
    try:
        val = UUID(uuid_string, version=4)
    except ValueError:
        return False
    return val.hex == uuid_string.replace('-', '')
```

The Python standard library's `uuid.UUID(hex, version=4)` constructor:
removes every occurrence of `'urn:'` and then `'uuid:'`, strips `'{'`/`'}'`
from both ends, removes every `'-'`, requires exactly 32 hex digits,
parses them with `int(hex, 16)`, then forces the RFC-4122 variant
(`int &= ~(0xc000 << 48); int |= 0x8000 << 48`, i.e. bits 62-63, which lie
in hex digit 16 counted from the left: the nibble `v` becomes `v % 4 + 8`)
and the version (`int &= ~(0xf000 << 64); int |= 4 << 76`, i.e. bits 76-79,
hex digit 12, which becomes `4`).  `val.hex` is the 32-digit lowercase hex
rendering of the resulting 128-bit value.  Strings are modelled as
`List Char`; the 128-bit value is modelled by its list of 32 nibble values,
on which the bit operations above act digit-wise. -/

/-- One step of Python's `str.replace(pat, '')`, with explicit fuel so the
definition is structurally recursive (the scan is left-to-right and
non-overlapping; a replaced occurrence is skipped, not rescanned).  The
fuel is always at least the length of the remaining list, so the `0, l`
branch is never reached when called through `pyReplaceEmpty`. -/
def pyReplaceEmptyAux (pat : List Char) : Nat → List Char → List Char
  | _, [] => []
  | 0, l => l
  | fuel + 1, c :: rest =>
    if pat ≠ [] ∧ (c :: rest).take pat.length = pat then
      pyReplaceEmptyAux pat fuel ((c :: rest).drop pat.length)
    else
      c :: pyReplaceEmptyAux pat fuel rest

/-- Python's `s.replace(pat, '')`. -/
def pyReplaceEmpty (pat l : List Char) : List Char :=
  pyReplaceEmptyAux pat l.length l

/-- Python's `s.strip('{}')`: removes leading and trailing braces. -/
def pyStripBraces (l : List Char) : List Char :=
  ((l.dropWhile fun c => c == '{' || c == '}').reverse.dropWhile
    (fun c => c == '{' || c == '}')).reverse

/-- Hex digit values as accepted by `int(hex, 16)` (both cases).  `int` also
tolerates surrounding whitespace, a sign and inner underscores, but any such
character survives `uuid_string.replace('-', '')` while `val.hex` is pure
hex, so those inputs make `is_valid_uuid` return `False` through the final
comparison exactly as they do here through a parse failure. -/
def hexDigitTable : List (Char × Nat) :=
  [('0', 0), ('1', 1), ('2', 2), ('3', 3), ('4', 4), ('5', 5), ('6', 6),
   ('7', 7), ('8', 8), ('9', 9),
   ('a', 10), ('b', 11), ('c', 12), ('d', 13), ('e', 14), ('f', 15),
   ('A', 10), ('B', 11), ('C', 12), ('D', 13), ('E', 14), ('F', 15)]

def hexVal? (c : Char) : Option Nat := hexDigitTable.lookup c

/-- `int(hex, 16)` on a digit string, keeping the digit values. -/
def pyIntHexDigits? : List Char → Option (List Nat)
  | [] => some []
  | c :: rest =>
    match hexVal? c, pyIntHexDigits? rest with
    | some v, some vs => some (v :: vs)
    | _, _ => none

def urnPat : List Char := ['u', 'r', 'n', ':']

def uuidPat : List Char := ['u', 'u', 'i', 'd', ':']

/-- The string-processing part of `uuid.UUID.__init__` for a `hex` argument:
`hex.replace('urn:', '').replace('uuid:', '').strip('{}').replace('-', '')`,
the length-32 check, and `int(hex, 16)`. -/
def uuidHexDigits? (s : List Char) : Option (List Nat) :=
  let h := pyReplaceEmpty uuidPat (pyReplaceEmpty urnPat s)
  let h := pyStripBraces h
  let h := h.filter (fun c => c != '-')
  if h.length = 32 then pyIntHexDigits? h else none

/-- The `version=4` forcing in `uuid.UUID.__init__`, expressed on the 32
nibbles of the 128-bit value: variant first
(`int &= ~(0xc000 << 48); int |= 0x8000 << 48`, digit 16), then version
(`int &= ~(0xf000 << 64); int |= 4 << 76`, digit 12). -/
def uuid4ForceDigits (ns : List Nat) : List Nat :=
  (ns.set 16 (ns.getD 16 0 % 4 + 8)).set 12 4

/-- Lowercase hex rendering of a nibble, as used by `'%032x' % int`. -/
def lowerHexChar (v : Nat) : Char :=
  if v < 10 then Char.ofNat ('0'.toNat + v) else Char.ofNat ('a'.toNat + v - 10)

/-- `val.hex`: the 32-character lowercase hex string of the UUID value. -/
def uuidHexString (ns : List Nat) : List Char := ns.map lowerHexChar

/-- `is_valid_uuid` from `src/api/wsmanager.py` lines 43-48 (identical in
`src/wsmanager.py` lines 18-23). -/
def is_valid_uuid (s : List Char) : Bool :=
  match uuidHexDigits? s with
  | none => false
  | some ns => uuidHexString (uuid4ForceDigits ns) == s.filter (fun c => c != '-')

/-- The sixteen lowercase hex digits. -/
def lowerHexDigits : List Char :=
  ['0', '1', '2', '3', '4', '5', '6', '7'] ++
    ['8', '9', 'a', 'b', 'c', 'd', 'e', 'f']

def isLowerHex (c : Char) : Bool := lowerHexDigits.contains c

/-- Characterisation of the strings accepted by `is_valid_uuid`, stated on
the string with its hyphens removed: 32 lowercase hex digits whose version
nibble (digit 12) is `4` and whose variant nibble (digit 16) is `8`, `9`,
`a` or `b`. -/
def isV4HexDigits (h : List Char) : Bool :=
  h.length == 32 && h.all isLowerHex && h.getD 12 ' ' == '4' &&
    ['8', '9', 'a', 'b'].contains (h.getD 16 ' ')

/-- The canonical lowercase hex-and-hyphen textual form of an RFC-4122
version-4 UUID, following the claim's words: length 36, hyphens exactly at
positions 8, 13, 18 and 23, every other character a lowercase hex digit,
version nibble (position 14) equal to `4` and variant nibble (position 19)
in `8/9/a/b`. -/
def isCanonicalUuid4String (s : List Char) : Bool :=
  s.length == 36 &&
  (List.range 36).all (fun i =>
    if i = 8 ∨ i = 13 ∨ i = 18 ∨ i = 23 then s.getD i ' ' == '-'
    else isLowerHex (s.getD i ' ')) &&
  s.getD 14 ' ' == '4' && ['8', '9', 'a', 'b'].contains (s.getD 19 ' ')

/-- A hyphen-free string accepted by `is_valid_uuid`: 32 hex digits with
version nibble 4 and variant nibble 8, without the canonical hyphens. -/
def hyphenlessUuid : List Char :=
  ['0', '0', '0', '0', '0', '0', '0', '0', '0', '0', '0', '0', '4', '0',
   '0', '0', '8', '0', '0', '0', '0', '0', '0', '0', '0', '0', '0', '0',
   '0', '0', '0', '0']

/-! ## Connection manager (`src/api/wsmanager.py` lines 95-104)

Only the room-id validation prefix of `connection_handler` matters here; the
steps it performs are reified as a trace. -/

inductive CloseCode where
  | ERR_INVALID_UUID
  | ERR_INVALID_REQUEST
  | ERR_TOO_MANY_CONNECTIONS
  | ERR_ROOM_FULL
  | ERR_TOO_MANY_ROOMS_CREATED
  | ERR_INVALID_ROOM
deriving DecidableEq, Repr

inductive HandlerStep where
  /-- `await client.close(code=...)` -/
  | close (code : CloseCode)
  /-- `await client.accept()` -/
  | accept
  /-- `self._clients.append(client)` -/
  | register
  /-- handing the request stream to `self._gss.handle_connection` -/
  | handle (room_id : List Char)
deriving DecidableEq, Repr

/-- The prefix of `WebsocketManager.connection_handler` (lines 95-104):
`room_id = client.path().lstrip('/')`; if `is_valid_uuid` fails, close with
`ERR_INVALID_UUID` and return; otherwise accept, register the client and
hand the stream to the game state server. -/
def connection_handler_trace (path : List Char) : List HandlerStep :=
  let room_id := path.dropWhile (fun c => c == '/')
  if is_valid_uuid room_id then
    [HandlerStep.accept, HandlerStep.register, HandlerStep.handle room_id]
  else
    [HandlerStep.close CloseCode.ERR_INVALID_UUID]

/-! ## Game state server (`src/game_state_server.py`)

`src/room.py` and `src/api_structures.py` are not among the given sources
(only their caller `src/game_state_server.py` is), so the `Room` operations
and the request/response structures are modelled from the spec, with the
field and method names used by the server code.  Python dicts are modelled
as insertion-ordered association lists. -/

inductive Entity where
  | token (t : Token)
  | ping (p : Ping)
deriving DecidableEq, Repr

/-- Python dict assignment `m[k] = v`: replaces in place when the key is
present (keeping its position), otherwise appends. -/
def dictSet {β : Type _} (m : List (String × β)) (k : String) (v : β) :
    List (String × β) :=
  if m.any (fun e => e.1 == k) then
    m.map fun e => if e.1 == k then (k, v) else e
  else
    m ++ [(k, v)]

/-- Python dict deletion `del m[k]` (on a present key). -/
def dictDelete {β : Type _} (m : List (String × β)) (k : String) :
    List (String × β) :=
  m.filter fun e => e.1 != k

/-- Modelled from the spec: the in-memory `Room` of `src/room.py` (missing
from the sources).  `game_state` is the dict from entity id to entity whose
values the server snapshots (`list(room.game_state.values())`); the color
pool is an ordered list of available colors with first-available assignment
and append-on-release. -/
structure Room where
  game_state : List (String × Entity)
  available_colors : List Color
deriving DecidableEq, Repr

/-- Intersection test for the half-open blocks
`[start_x, end_x) × [start_y, end_y) × [start_z, end_z)` of two tokens: the
blocks share a unit cell iff the intervals overlap in every dimension. -/
def blocksOverlap (t u : Token) : Bool :=
  max t.start_x u.start_x < min t.end_x u.end_x &&
  max t.start_y u.start_y < min t.end_y u.end_y &&
  max t.start_z u.start_z < min t.end_z u.end_z

/-- Modelled from the spec: `is_valid_position(token)` returns true iff
every unit cell of the token is either unoccupied or occupied only by a
token with the same id; pings are not indexed by position. -/
def Room.is_valid_position (room : Room) (tok : Token) : Bool :=
  room.game_state.all fun e =>
    match e.2 with
    | Entity.token u => u.id == tok.id || !(blocksOverlap tok u)
    | Entity.ping _ => true

/-- Modelled from the spec: `upsert(token)` — removes any prior version of
the same id, inserts the new one, assigns the first available color when the
token is a character without a color and the pool is non-empty (exhaustion
is not an error), and releases the displaced version's color back to the
pool (appended). -/
def Room.create_or_update_token (room : Room) (tok : Token) : Room :=
  let displaced : List Color :=
    match room.game_state.lookup tok.id with
    | some (Entity.token old) => old.color_rgb.toList
    | _ => []
  let (tok', pool) :=
    if tok.type == "character" && tok.color_rgb == none then
      match room.available_colors with
      | [] => (tok, ([] : List Color))
      | c :: rest => ({ tok with color_rgb := some c }, rest)
    else
      (tok, room.available_colors)
  { game_state := dictSet room.game_state tok.id (Entity.token tok')
    available_colors := pool ++ displaced }

/-- Modelled from the spec: `delete(token_id)` removes the entity and
releases its color. -/
def Room.delete_token (room : Room) (tid : String) : Room :=
  let released : List Color :=
    match room.game_state.lookup tid with
    | some (Entity.token old) => old.color_rgb.toList
    | _ => []
  { game_state := dictDelete room.game_state tid
    available_colors := room.available_colors ++ released }

/-- Modelled from the spec: `place_ping(ping)` places the ping (not indexed
by position). -/
def Room.create_ping (room : Room) (p : Ping) : Room :=
  { room with game_state := dictSet room.game_state p.id (Entity.ping p) }

/-- `snapshot()`: `list(room.game_state.values())`. -/
def Room.snapshot (room : Room) : List Entity :=
  room.game_state.map Prod.snd

/-- The tagged update variants of `src/api_structures.py` as dispatched by
the server: `CreateOrUpdateAction` (its two action strings `'create'` and
`'update'` are handled by one branch), `DeleteAction`, `PingAction`. -/
inductive Action where
  | createOrUpdate (data : Token)
  | delete (data : String)
  | ping (data : Ping)
deriving DecidableEq, Repr

/-- A request from the change feed: a request id and an ordered list of
updates.  `request_id` is `Option String` so that both a missing (`None`)
and an empty request id can be expressed. -/
structure Request where
  request_id : Option String
  updates : List Action
deriving DecidableEq, Repr

/-- Python truthiness of `request.request_id`
(`if request.request_id:`, `game_state_server.py` line 164). -/
def Request.hasRequestId (r : Request) : Bool :=
  match r.request_id with
  | none => false
  | some s => s != ""

/-- Server responses: `ConnectionResponse`, `StateResponse`,
`ErrorResponse` from `src/api_structures.py`. -/
inductive Response where
  | connected (data : List Entity)
  | state (data : List Entity) (request_id : String)
  | error (data : String) (request_id : String) (session_id : String)
deriving DecidableEq, Repr

def Response.isError : Response → Bool
  | Response.error _ _ _ => true
  | _ => false

/-- `PING_LENGTH_SECS = 3` (`game_state_server.py` line 37). -/
def PING_LENGTH_SECS : Nat := 3

/-- Accumulator of the update loop of `_room_changes_to_messages`
(lines 174-202): the room, the error responses yielded so far, and
`pings_created`. -/
structure UpdateAcc where
  room : Room
  responses : List Response
  pings_created : List String
deriving DecidableEq, Repr

/-- One iteration of the `for update in request.updates` loop
(`game_state_server.py` lines 175-202).  For `create`/`update`, an invalid
position yields `ErrorResponse('That position is occupied, bucko', …)`; for
`delete`, `room.game_state.get(update.data, False)` is truthy exactly when
the entity is present (dataclass instances are truthy); for `ping`, the
ping is placed and its id recorded. -/
def applyUpdate (session_id request_id : String) (acc : UpdateAcc) (u : Action) :
    UpdateAcc :=
  match u with
  | Action.createOrUpdate tok =>
    if acc.room.is_valid_position tok then
      { acc with room := acc.room.create_or_update_token tok }
    else
      { acc with responses := acc.responses ++
          [Response.error "That position is occupied, bucko" request_id session_id] }
  | Action.delete tid =>
    match acc.room.game_state.lookup tid with
    | some _ => { acc with room := acc.room.delete_token tid }
    | none =>
      { acc with responses := acc.responses ++
          [Response.error "Cannot delete token because it does not exist"
            request_id session_id] }
  | Action.ping p =>
    { acc with room := acc.room.create_ping p
               pings_created := acc.pings_created ++ [p.id] }

/-- `_expire_pings` (`game_state_server.py` lines 213-220): after sleeping
`PING_LENGTH_SECS`, adds to the room store a request with the same request
id made of one delete action per created ping id. -/
def expirePingsRequest (request_id : String) (ping_ids : List String) : Request :=
  { request_id := some request_id
    updates := ping_ids.map Action.delete }

/-- Result of `_room_changes_to_messages` on one feed request: the new local
room, the responses yielded (in order), the created ping ids, and the
scheduled `_expire_pings` task (sleep seconds paired with the follow-up
request it adds to the room store). -/
structure ProcessResult where
  room : Room
  responses : List Response
  pings_created : List String
  scheduled : Option (Nat × Request)
deriving DecidableEq, Repr

/-- `_room_changes_to_messages` (`game_state_server.py` lines 163-211) on a
single request from the change feed: when `request.request_id` is truthy,
fold the updates, schedule ping expiry when pings were created, and yield
the accumulated error responses followed by one
`StateResponse(list(room.game_state.values()), request_id)`; otherwise do
nothing. -/
def processRequest (room : Room) (session_id : String) (req : Request) :
    ProcessResult :=
  if req.hasRequestId then
    let rid := req.request_id.getD ""
    let acc := req.updates.foldl (applyUpdate session_id rid) ⟨room, [], []⟩
    { room := acc.room
      responses := acc.responses ++ [Response.state acc.room.snapshot rid]
      pings_created := acc.pings_created
      scheduled :=
        if acc.pings_created.isEmpty then none
        else some (PING_LENGTH_SECS, expirePingsRequest rid acc.pings_created) }
  else
    ⟨room, [], [], none⟩

/-- The ids of the ping updates of a request, in order. -/
def pingIds (us : List Action) : List String :=
  us.filterMap fun u =>
    match u with
    | Action.ping p => some p.id
    | _ => none

/-! ### Connection lifecycle bookkeeping (`handle_connection`)

Of `GameStateServer` only `_room_context_by_id` matters for C8: a dict from
room id to room context, of which we keep the fan-out `output_queues`
(queues identified by numbers) and whether the change-listener task is
running. -/

structure RoomCtxState where
  output_queues : List Nat
  task_alive : Bool
deriving DecidableEq, Repr

/-- The registration part of `handle_connection` (lines 118-135): create the
room context with an empty queue list if absent, then append the
connection's listener queue. -/
def registerListener (m : List (String × RoomCtxState)) (room_id : String)
    (q : Nat) : List (String × RoomCtxState) :=
  match m.lookup room_id with
  | none => dictSet m room_id ⟨[q], true⟩
  | some ctx => dictSet m room_id ⟨ctx.output_queues ++ [q], ctx.task_alive⟩

/-- The `finally` block of `handle_connection` (lines 148-155):
`room_context = self._room_context_by_id[room_id]` (raises `KeyError` when
absent, modelled as `none`), `queues.remove(listener_q)`, and when the queue
list becomes empty, `change_listener.task.cancel()` (the returned `Bool`)
and `del self._room_context_by_id[room_id]`. -/
def cleanupListener (m : List (String × RoomCtxState)) (room_id : String)
    (q : Nat) : Option (List (String × RoomCtxState) × Bool) :=
  match m.lookup room_id with
  | none => none
  | some ctx =>
    let queues := ctx.output_queues.erase q
    if queues.isEmpty then
      some (dictDelete m room_id, true)
    else
      some (dictSet m room_id ⟨queues, ctx.task_alive⟩, false)

/-! ### Concrete sample data for witnesses -/

def emptyRoom : Room := ⟨[], []⟩

/-- A token occupying the unit cell `(0,0,0)`. -/
def sampleToken : Token :=
  { id := "t1", type := "character", contents := TokenContents.icon "i1"
    start_x := 0, start_y := 0, start_z := 0
    end_x := 1, end_y := 1, end_z := 1
    color_rgb := some ⟨0, 0, 0⟩ }

/-- A distinct-id token occupying the same unit cell as `sampleToken`. -/
def overlapToken : Token :=
  { id := "t2", type := "character", contents := TokenContents.icon "i2"
    start_x := 0, start_y := 0, start_z := 0
    end_x := 1, end_y := 1, end_z := 1
    color_rgb := some ⟨1, 1, 1⟩ }

/-- A room already containing `sampleToken`. -/
def roomWithToken : Room := ⟨[("t1", Entity.token sampleToken)], []⟩

def samplePing : Ping := ⟨"p1", 0, 0⟩

end TTBud

namespace TTBud

/-! ## Theorems -/

/-- C1: the migration function does *not* copy `end_x` verbatim: on a legacy
token with `start_x = 0` and `end_x = 5`, the migrated token's `end_x` is `0`
(`migrate.py` line 36 reads `end_x=old.start_x`), contradicting the
round-trip property, while every other coordinate, the color and the icon id
are preserved as the spec states. -/
theorem v1_to_v2_drops_end_x :
    sampleV1Token.end_x = 5 ∧
    (v1_to_v2 sampleV1Token).end_x = 0 ∧
    (v1_to_v2 sampleV1Token).end_x ≠ sampleV1Token.end_x ∧
    (v1_to_v2 sampleV1Token).start_x = sampleV1Token.start_x ∧
    (v1_to_v2 sampleV1Token).start_y = sampleV1Token.start_y ∧
    (v1_to_v2 sampleV1Token).start_z = sampleV1Token.start_z ∧
    (v1_to_v2 sampleV1Token).end_y = sampleV1Token.end_y ∧
    (v1_to_v2 sampleV1Token).end_z = sampleV1Token.end_z ∧
    (v1_to_v2 sampleV1Token).color_rgb = sampleV1Token.color_rgb ∧
    (v1_to_v2 sampleV1Token).contents = TokenContents.icon sampleV1Token.icon_id := by
  refine ⟨rfl, rfl, ?_, rfl, rfl, rfl, rfl, rfl, rfl, rfl⟩
  decide

/-- C5 counterexample: the slept interval is *not* always at most
`expiration / 3`.  With `expiration = 48`, the jitter `refresh_offset = 3`
lies inside `[-max_refresh_offset, max_refresh_offset] = [-3, 3]`, yet the
sleep interval is `19 > 48 / 3 = 16`. -/
theorem liveness_sleep_can_exceed_third :
    -max_refresh_offset 48 ≤ 3 ∧ (3 : ℚ) ≤ max_refresh_offset 48 ∧
    ¬ liveness_sleep_interval 48 3 ≤ 48 / 3 := by
  refine ⟨?_, ?_, ?_⟩ <;> norm_num [max_refresh_offset, liveness_sleep_interval]

/-- C5 (amended): for a nonnegative expiration and any jitter offset within
`[-expiration/16, expiration/16]`, the interval slept between successive
`refresh_server_liveness` calls lies within
`[expiration/3 - expiration/16, expiration/3 + expiration/16]`. -/
theorem liveness_sleep_interval_bounds (expiration refresh_offset : ℚ)
    (_hexp : 0 ≤ expiration)
    (hlo : -max_refresh_offset expiration ≤ refresh_offset)
    (hhi : refresh_offset ≤ max_refresh_offset expiration) :
    expiration / 3 - expiration / 16 ≤ liveness_sleep_interval expiration refresh_offset ∧
    liveness_sleep_interval expiration refresh_offset ≤ expiration / 3 + expiration / 16 := by
  unfold liveness_sleep_interval
  unfold max_refresh_offset at hlo hhi
  constructor <;> linarith

/-- C5 witness: the amended bound at `expiration = 48`, `refresh_offset = 3`. -/
theorem liveness_sleep_interval_bounds_witness :
    48 / 3 - 48 / 16 ≤ liveness_sleep_interval 48 3 ∧
    liveness_sleep_interval 48 3 ≤ 48 / 3 + (48 : ℚ) / 16 :=
  liveness_sleep_interval_bounds 48 3 (by norm_num)
    (by norm_num [max_refresh_offset]) (by norm_num [max_refresh_offset])

/-- C4 counterexample: on a `MemoryRoomStore` with no stored data, reading
room id `"room1"` raises `KeyError` instead of returning `None`. -/
theorem memory_read_raises_on_missing :
    (MemoryRoomStore.read_room_data ⟨"store", ([] : List (String × Nat))⟩ "room1"
      = Except.error (PyError.keyError "room1")) ∧
    (MemoryRoomStore.read_room_data ⟨"store", ([] : List (String × Nat))⟩ "room1"
      ≠ Except.ok none) := by
  exact ⟨rfl, by simp [MemoryRoomStore.read_room_data]⟩

/-- C4 (amended): `read_room_data` returns the stored entities when the room
exists; when no data is stored, the in-memory implementation raises
`KeyError` and the file-backed implementation raises `FileNotFoundError`
(returning `None` only when the resolved path escapes the store directory),
rather than returning nil. -/
theorem read_room_data_spec {α : Type} (ms : MemoryRoomStore α)
    (fs : FileRoomStore α) (abspath : String → String) (room_id : String) :
    (∀ d, ms.stored_data.lookup room_id = some d →
      ms.read_room_data room_id = Except.ok (some d)) ∧
    (ms.stored_data.lookup room_id = none →
      ms.read_room_data room_id = Except.error (PyError.keyError room_id)) ∧
    (∀ d, fs.is_valid_path abspath (fs.path ++ "/" ++ room_id) = true →
      fs.files.lookup (fs.path ++ "/" ++ room_id) = some d →
      fs.read_room_data abspath room_id = Except.ok (some d)) ∧
    (fs.is_valid_path abspath (fs.path ++ "/" ++ room_id) = true →
      fs.files.lookup (fs.path ++ "/" ++ room_id) = none →
      fs.read_room_data abspath room_id
        = Except.error (PyError.fileNotFound (fs.path ++ "/" ++ room_id))) ∧
    (fs.is_valid_path abspath (fs.path ++ "/" ++ room_id) = false →
      fs.read_room_data abspath room_id = Except.ok none) := by
  refine ⟨?_, ?_, ?_, ?_, ?_⟩
  · intro d hd
    simp [MemoryRoomStore.read_room_data, hd]
  · intro hd
    simp [MemoryRoomStore.read_room_data, hd]
  · intro d hvalid hd
    simp [FileRoomStore.read_room_data, hvalid, hd]
  · intro hvalid hd
    simp [FileRoomStore.read_room_data, hvalid, hd]
  · intro hvalid
    simp [FileRoomStore.read_room_data, hvalid]

/-! ### Helper lemmas about the UUID string pipeline -/

theorem lookup_mem {α β : Type _} [BEq α] [LawfulBEq α] {l : List (α × β)}
    {k : α} {v : β} (h : l.lookup k = some v) : (k, v) ∈ l := by
  induction l with
  | nil => simp [List.lookup] at h
  | cons p rest ih =>
    obtain ⟨a, b⟩ := p
    rw [List.lookup_cons] at h
    split at h
    · next heq =>
      cases h
      have : k = a := eq_of_beq heq
      subst this
      exact List.mem_cons_self _ _
    · exact List.mem_cons_of_mem _ (ih h)

theorem hexVal?_lt16 {c : Char} {v : Nat} (h : hexVal? c = some v) : v < 16 := by
  have hm : (c, v) ∈ hexDigitTable := lookup_mem h
  have hall : ∀ p ∈ hexDigitTable, p.2 < 16 := by decide
  exact hall _ hm

/-- The digit value of a lowercase hex digit. -/
def hexValD (c : Char) : Nat := (hexVal? c).getD 0

theorem lowerHex_roundtrip {c : Char} (h : isLowerHex c = true) :
    hexVal? c = some (hexValD c) ∧ lowerHexChar (hexValD c) = c := by
  have hc : c ∈ lowerHexDigits := by
    simpa [isLowerHex] using h
  simp only [lowerHexDigits, List.mem_append, List.mem_cons, List.not_mem_nil,
    or_false] at hc
  rcases hc with
    (rfl | rfl | rfl | rfl | rfl | rfl | rfl | rfl) |
    (rfl | rfl | rfl | rfl | rfl | rfl | rfl | rfl) <;> exact ⟨rfl, rfl⟩

theorem pyReplaceEmptyAux_eq_self {p : Char} {pt : List Char} (fuel : Nat)
    (l : List Char) (h : p ∉ l) : pyReplaceEmptyAux (p :: pt) fuel l = l := by
  induction fuel generalizing l with
  | zero => cases l <;> rfl
  | succ n ih =>
    cases l with
    | nil => rfl
    | cons c rest =>
      have hpc : p ≠ c := fun hpc => h (hpc ▸ List.mem_cons_self c rest)
      have hpr : p ∉ rest := fun hm => h (List.mem_cons_of_mem c hm)
      rw [pyReplaceEmptyAux]
      rw [if_neg, ih rest hpr]
      rintro ⟨-, htake⟩
      have : c = p := by
        have hh := congrArg List.head? htake
        simpa [List.take] using hh
      exact hpc this.symm

theorem pyReplaceEmpty_eq_self {p : Char} {pt : List Char} {l : List Char}
    (h : p ∉ l) : pyReplaceEmpty (p :: pt) l = l :=
  pyReplaceEmptyAux_eq_self l.length l h

theorem dropWhile_eq_self_of_not {p : Char → Bool} {l : List Char}
    (h : ∀ c ∈ l, p c = false) : l.dropWhile p = l := by
  cases l with
  | nil => rfl
  | cons c rest => simp [List.dropWhile_cons, h c (List.mem_cons_self c rest)]

theorem pyStripBraces_eq_self {l : List Char}
    (h : ∀ c ∈ l, (c == '{' || c == '}') = false) : pyStripBraces l = l := by
  unfold pyStripBraces
  rw [dropWhile_eq_self_of_not h]
  rw [dropWhile_eq_self_of_not fun c hc => h c (List.mem_reverse.mp hc)]
  exact List.reverse_reverse l

theorem pyIntHexDigits?_length {l : List Char} {ns : List Nat}
    (h : pyIntHexDigits? l = some ns) : ns.length = l.length := by
  induction l generalizing ns with
  | nil =>
    rw [pyIntHexDigits?] at h
    cases h
    rfl
  | cons c rest ih =>
    rw [pyIntHexDigits?] at h
    cases hv : hexVal? c with
    | none => rw [hv] at h; cases h
    | some v =>
      cases hr : pyIntHexDigits? rest with
      | none => rw [hv, hr] at h; cases h
      | some vs =>
        rw [hv, hr] at h
        cases h
        simp [ih hr]

theorem pyIntHexDigits?_lt16 {l : List Char} {ns : List Nat}
    (h : pyIntHexDigits? l = some ns) : ∀ v ∈ ns, v < 16 := by
  induction l generalizing ns with
  | nil =>
    rw [pyIntHexDigits?] at h
    cases h
    simp
  | cons c rest ih =>
    rw [pyIntHexDigits?] at h
    cases hv : hexVal? c with
    | none => rw [hv] at h; cases h
    | some v =>
      cases hr : pyIntHexDigits? rest with
      | none => rw [hv, hr] at h; cases h
      | some vs =>
        rw [hv, hr] at h
        cases h
        intro x hx
        rcases List.mem_cons.mp hx with rfl | hx
        · exact hexVal?_lt16 hv
        · exact ih hr x hx

theorem pyIntHexDigits?_of_all {l : List Char}
    (h : ∀ c ∈ l, isLowerHex c = true) :
    pyIntHexDigits? l = some (l.map hexValD) := by
  induction l with
  | nil => rfl
  | cons c rest ih =>
    have hc := lowerHex_roundtrip (h c (List.mem_cons_self c rest))
    rw [pyIntHexDigits?, hc.1, ih fun x hx => h x (List.mem_cons_of_mem c hx)]
    rfl

theorem lowerHexChar_isLowerHex {v : Nat} (h : v < 16) :
    isLowerHex (lowerHexChar v) = true := by
  interval_cases v <;> decide

theorem set_getD_self : ∀ (l : List Nat) (i : Nat), i < l.length →
    l.set i (l.getD i 0) = l := by
  intro l
  induction l with
  | nil => intro i h; simp at h
  | cons a rest ih =>
    intro i h
    cases i with
    | zero => rfl
    | succ n =>
      simp only [List.getD_cons_succ, List.set_cons_succ]
      rw [ih n (by simpa using h)]

theorem getD_map' {α β : Type _} (f : α → β) (l : List α) (i : Nat) (d : α)
    (e : β) (h : i < l.length) : (l.map f).getD i e = f (l.getD i d) := by
  induction l generalizing i with
  | nil => simp at h
  | cons a rest ih =>
    cases i with
    | zero => rfl
    | succ n =>
      simp only [List.map_cons, List.getD_cons_succ]
      exact ih n (by simpa using h)

theorem getD_set_self' {α : Type _} (l : List α) (i : Nat) (a d : α)
    (h : i < l.length) : (l.set i a).getD i d = a := by
  induction l generalizing i with
  | nil => simp at h
  | cons b rest ih =>
    cases i with
    | zero => rfl
    | succ n =>
      simp only [List.set_cons_succ, List.getD_cons_succ]
      exact ih n (by simpa using h)

theorem getD_set_ne' {α : Type _} (l : List α) (i j : Nat) (a d : α)
    (h : i ≠ j) : (l.set i a).getD j d = l.getD j d := by
  induction l generalizing i j with
  | nil => simp [List.set]
  | cons b rest ih =>
    cases i with
    | zero =>
      cases j with
      | zero => exact absurd rfl h
      | succ m => rfl
    | succ n =>
      cases j with
      | zero => rfl
      | succ m =>
        simp only [List.set_cons_succ, List.getD_cons_succ]
        exact ih n m fun e => h (by rw [e])

/-- C9 (amended): `is_valid_uuid(s)` returns `True` if and only if `s` with
all hyphens removed is exactly 32 lowercase hex digits whose version nibble
(digit 12) is `4` and whose variant nibble (digit 16) is `8`, `9`, `a` or
`b`; hyphens may appear anywhere, not only at the canonical positions.  In
particular any uppercase digit, braces or urn wrapper, or wrong version or
variant nibble makes it return `False`, and such connection paths are
closed with `ERR_INVALID_UUID`. -/
theorem is_valid_uuid_iff_v4_hex (s : List Char) :
    is_valid_uuid s = true ↔ isV4HexDigits (s.filter (fun c => c != '-')) = true := by
  constructor
  · intro h
    cases hp : uuidHexDigits? s with
    | none =>
      simp only [is_valid_uuid, hp] at h
      exact absurd h Bool.false_ne_true
    | some ns =>
      simp only [is_valid_uuid, hp] at h
      have heq : uuidHexString (uuid4ForceDigits ns) = s.filter (fun c => c != '-') :=
        eq_of_beq h
      have hfacts : ns.length = 32 ∧ ∀ v ∈ ns, v < 16 := by
        have hp' := hp
        simp only [uuidHexDigits?] at hp'
        split at hp'
        · next h32 =>
          exact ⟨(pyIntHexDigits?_length hp').trans h32, pyIntHexDigits?_lt16 hp'⟩
        · simp at hp'
      obtain ⟨hns32, hlt⟩ := hfacts
      set fns := uuid4ForceDigits ns with hfns
      have hfnslen : fns.length = 32 := by
        simp [hfns, uuid4ForceDigits, hns32]
      have hfnslt : ∀ v ∈ fns, v < 16 := by
        intro v hv
        rcases List.mem_or_eq_of_mem_set hv with hv | rfl
        · rcases List.mem_or_eq_of_mem_set hv with hv | rfl
          · exact hlt v hv
          · have : ns.getD 16 0 % 4 < 4 := Nat.mod_lt _ (by norm_num)
            omega
        · norm_num
      have hlen : (uuidHexString fns).length = 32 := by
        simp [uuidHexString, hfnslen]
      have hall : ∀ c ∈ uuidHexString fns, isLowerHex c = true := by
        intro c hc
        rcases List.mem_map.mp hc with ⟨v, hv, rfl⟩
        exact lowerHexChar_isLowerHex (hfnslt v hv)
      have h12 : (uuidHexString fns).getD 12 ' ' = '4' := by
        rw [uuidHexString, getD_map' lowerHexChar fns 12 0 ' ' (by omega)]
        have hv12 : fns.getD 12 0 = 4 := by
          rw [hfns, uuid4ForceDigits]
          exact getD_set_self' _ _ _ _ (by simp [hns32])
        rw [hv12]
        decide
      have h16 : ['8', '9', 'a', 'b'].contains ((uuidHexString fns).getD 16 ' ') = true := by
        rw [uuidHexString, getD_map' lowerHexChar fns 16 0 ' ' (by omega)]
        have hv16 : fns.getD 16 0 = ns.getD 16 0 % 4 + 8 := by
          rw [hfns, uuid4ForceDigits]
          rw [getD_set_ne' _ 12 16 _ _ (by norm_num)]
          exact getD_set_self' _ _ _ _ (by omega)
        rw [hv16]
        have hm4 : ns.getD 16 0 % 4 = 0 ∨ ns.getD 16 0 % 4 = 1 ∨
            ns.getD 16 0 % 4 = 2 ∨ ns.getD 16 0 % 4 = 3 := by omega
        rcases hm4 with h4 | h4 | h4 | h4 <;> rw [h4] <;> decide
      rw [← heq]
      simp only [isV4HexDigits, Bool.and_eq_true, beq_iff_eq, List.all_eq_true]
      exact ⟨⟨⟨hlen, hall⟩, h12⟩, h16⟩
  · intro h
    simp only [isV4HexDigits, Bool.and_eq_true, beq_iff_eq, List.all_eq_true] at h
    obtain ⟨⟨⟨hlen, hall⟩, h12⟩, h16⟩ := h
    have hschar : ∀ c ∈ s, c = '-' ∨ isLowerHex c = true := by
      intro c hc
      by_cases hcd : c = '-'
      · exact Or.inl hcd
      · refine Or.inr (hall c ?_)
        exact List.mem_filter.mpr ⟨hc, by simp only [bne_iff_ne]; exact hcd⟩
    have hu : 'u' ∉ s := by
      intro hm
      rcases hschar 'u' hm with h1 | h1
      · exact absurd h1 (by decide)
      · exact absurd h1 (by decide)
    have hbrace : ∀ c ∈ s, (c == '{' || c == '}') = false := by
      intro c hc
      rcases hschar c hc with rfl | h1
      · decide
      · have h2 : c ≠ '{' := fun e => by rw [e] at h1; exact absurd h1 (by decide)
        have h3 : c ≠ '}' := fun e => by rw [e] at h1; exact absurd h1 (by decide)
        simp [h2, h3]
    have hrep1 : pyReplaceEmpty urnPat s = s := by
      rw [show urnPat = 'u' :: ['r', 'n', ':'] from rfl]
      exact pyReplaceEmpty_eq_self hu
    have hrep2 : pyReplaceEmpty uuidPat s = s := by
      rw [show uuidPat = 'u' :: ['u', 'i', 'd', ':'] from rfl]
      exact pyReplaceEmpty_eq_self hu
    have hstrip : pyStripBraces s = s := pyStripBraces_eq_self hbrace
    have hparse : uuidHexDigits? s
        = some ((s.filter (fun c => c != '-')).map hexValD) := by
      simp only [uuidHexDigits?]
      rw [hrep1, hrep2, hstrip, if_pos hlen]
      exact pyIntHexDigits?_of_all hall
    set H := s.filter (fun c => c != '-') with hHdef
    set ns := H.map hexValD with hnsdef
    have hnslen : ns.length = 32 := by simp [hnsdef, hlen]
    have h16mem : H.getD 16 ' ' ∈ (['8', '9', 'a', 'b'] : List Char) := by
      simpa using h16
    have hforce : uuid4ForceDigits ns = ns := by
      have h16' : ns.getD 16 0 = hexValD (H.getD 16 ' ') := by
        rw [hnsdef]
        exact getD_map' hexValD H 16 ' ' 0 (by omega)
      have h12' : ns.getD 12 0 = hexValD (H.getD 12 ' ') := by
        rw [hnsdef]
        exact getD_map' hexValD H 12 ' ' 0 (by omega)
      rw [uuid4ForceDigits]
      have hvar : ns.getD 16 0 % 4 + 8 = ns.getD 16 0 := by
        rw [h16']
        have h16eq : H.getD 16 ' ' = '8' ∨ H.getD 16 ' ' = '9' ∨
            H.getD 16 ' ' = 'a' ∨ H.getD 16 ' ' = 'b' := by
          simpa using h16mem
        rcases h16eq with e | e | e | e <;> rw [e] <;> decide
      rw [hvar, set_getD_self ns 16 (by omega)]
      have h12v : (4 : Nat) = ns.getD 12 0 := by
        rw [h12', h12]
        decide
      rw [h12v, set_getD_self ns 12 (by omega)]
    have hrender : uuidHexString ns = H := by
      rw [hnsdef, uuidHexString, List.map_map]
      have hcong : ∀ c ∈ H, (lowerHexChar ∘ hexValD) c = id c := fun c hc =>
        (lowerHex_roundtrip (hall c hc)).2
      rw [List.map_congr_left hcong, List.map_id]
    simp only [is_valid_uuid, hparse, ← hnsdef, hforce, hrender]
    exact beq_self_eq_true H

/-! ### Helper lemmas about dicts and the update loop -/

theorem lookup_map_replace {β : Type _} (m : List (String × β)) (k : String)
    (v : β) : (m.map fun e => if e.1 == k then (k, v) else e).lookup k
      = if m.any (fun e => e.1 == k) then some v else none := by
  induction m with
  | nil => simp
  | cons e rest ih =>
    obtain ⟨k₁, v₁⟩ := e
    by_cases he : k₁ = k
    · subst he
      simp [List.lookup_cons]
    · have hb : (k₁ == k) = false := beq_eq_false_iff_ne.mpr he
      have hb' : (k == k₁) = false := beq_eq_false_iff_ne.mpr (Ne.symm he)
      simp only [List.map_cons, hb, Bool.false_eq_true, if_false, List.any_cons,
        List.lookup_cons, hb', Bool.false_or]
      exact ih

theorem lookup_append_self {β : Type _} (m : List (String × β)) (k : String)
    (v : β) (h : m.any (fun e => e.1 == k) = false) :
    (m ++ [(k, v)]).lookup k = some v := by
  induction m with
  | nil => simp [List.lookup_cons]
  | cons e rest ih =>
    obtain ⟨k₁, v₁⟩ := e
    simp only [List.any_cons, Bool.or_eq_false_iff] at h
    have hb' : (k == k₁) = false :=
      beq_eq_false_iff_ne.mpr fun he => (beq_eq_false_iff_ne.mp h.1) he.symm
    simp only [List.cons_append, List.lookup_cons, hb']
    exact ih h.2

theorem lookup_dictSet {β : Type _} (m : List (String × β)) (k : String)
    (v : β) : (dictSet m k v).lookup k = some v := by
  unfold dictSet
  by_cases h : m.any (fun e => e.1 == k) = true
  · rw [if_pos h, lookup_map_replace, if_pos h]
  · have h' : m.any (fun e => e.1 == k) = false := Bool.eq_false_iff.mpr h
    rw [if_neg h]
    exact lookup_append_self m k v h'

theorem lookup_dictDelete_self {β : Type _} (m : List (String × β))
    (k : String) : (dictDelete m k).lookup k = none := by
  induction m with
  | nil => rfl
  | cons e rest ih =>
    obtain ⟨k₁, v₁⟩ := e
    unfold dictDelete at ih ⊢
    by_cases he : k₁ = k
    · subst he
      simp only [List.filter_cons, bne_self_eq_false]
      exact ih
    · have hb : (k₁ != k) = true := bne_iff_ne.mpr he
      have hb' : (k == k₁) = false := beq_eq_false_iff_ne.mpr (Ne.symm he)
      simp only [List.filter_cons, hb, if_true, List.lookup_cons, hb']
      exact ih

theorem lookup_dictDelete_ne {β : Type _} (m : List (String × β))
    (k k' : String) (h : k' ≠ k) :
    (dictDelete m k).lookup k' = m.lookup k' := by
  induction m with
  | nil => rfl
  | cons e rest ih =>
    obtain ⟨k₁, v₁⟩ := e
    unfold dictDelete at ih ⊢
    by_cases he : k₁ = k
    · subst he
      have hb' : (k' == k₁) = false := beq_eq_false_iff_ne.mpr h
      simp only [List.filter_cons, bne_self_eq_false, if_false, List.lookup_cons, hb']
      exact ih
    · have hb : (k₁ != k) = true := bne_iff_ne.mpr he
      simp only [List.filter_cons, hb, if_true, List.lookup_cons]
      by_cases hk : k' = k₁
      · subst hk
        simp
      · have hb' : (k' == k₁) = false := beq_eq_false_iff_ne.mpr hk
        simp only [hb', Bool.false_eq_true, reduceIte]
        exact ih

/-- Shape of one `applyUpdate` step: starting from an empty accumulator it
produces some room and some response/ping deltas; starting from any
accumulator it appends exactly those deltas; the response delta consists of
error responses only and the ping delta is the ping ids of the update. -/
theorem applyUpdate_shape (sid rid : String) (room : Room) (u : Action) :
    ∃ r₁ δr δp, applyUpdate sid rid ⟨room, [], []⟩ u = ⟨r₁, δr, δp⟩ ∧
      (∀ rs ps, applyUpdate sid rid ⟨room, rs, ps⟩ u = ⟨r₁, rs ++ δr, ps ++ δp⟩) ∧
      (∀ r ∈ δr, r.isError = true) ∧ δp = pingIds [u] := by
  cases u with
  | createOrUpdate tok =>
    cases hval : room.is_valid_position tok
    · refine ⟨room, [Response.error "That position is occupied, bucko" rid sid],
        [], ?_, ?_, ?_, rfl⟩
      · simp [applyUpdate, hval]
      · intro rs ps; simp [applyUpdate, hval]
      · intro r hr
        rw [List.mem_singleton.mp hr]
        rfl
    · refine ⟨room.create_or_update_token tok, [], [], ?_, ?_, ?_, rfl⟩
      · simp [applyUpdate, hval]
      · intro rs ps; simp [applyUpdate, hval]
      · intro r hr; simp at hr
  | delete tid =>
    cases hl : room.game_state.lookup tid with
    | some e =>
      refine ⟨room.delete_token tid, [], [], ?_, ?_, ?_, rfl⟩
      · simp [applyUpdate, hl]
      · intro rs ps; simp [applyUpdate, hl]
      · intro r hr; simp at hr
    | none =>
      refine ⟨room,
        [Response.error "Cannot delete token because it does not exist" rid sid],
        [], ?_, ?_, ?_, rfl⟩
      · simp [applyUpdate, hl]
      · intro rs ps; simp [applyUpdate, hl]
      · intro r hr
        rw [List.mem_singleton.mp hr]
        rfl
  | ping p =>
    refine ⟨room.create_ping p, [], [p.id], ?_, ?_, ?_, rfl⟩
    · simp [applyUpdate]
    · intro rs ps; simp [applyUpdate]
    · intro r hr; simp at hr

/-- Shape of the whole update loop, by iterating `applyUpdate_shape`. -/
theorem foldl_applyUpdate_shape (sid rid : String) (us : List Action) :
    ∀ room : Room, ∃ room' δr δp,
      us.foldl (applyUpdate sid rid) ⟨room, [], []⟩ = ⟨room', δr, δp⟩ ∧
      (∀ rs ps, us.foldl (applyUpdate sid rid) ⟨room, rs, ps⟩
        = ⟨room', rs ++ δr, ps ++ δp⟩) ∧
      (∀ r ∈ δr, r.isError = true) ∧ δp = pingIds us := by
  induction us with
  | nil =>
    intro room
    exact ⟨room, [], [], rfl, fun rs ps => by simp, by intro r hr; simp at hr, rfl⟩
  | cons u rest ih =>
    intro room
    obtain ⟨r₁, δ₁, p₁, h1, h2, h3, h4⟩ := applyUpdate_shape sid rid room u
    obtain ⟨room', δr, δp, g1, g2, g3, g4⟩ := ih r₁
    refine ⟨room', δ₁ ++ δr, p₁ ++ δp, ?_, ?_, ?_, ?_⟩
    · rw [List.foldl_cons, h1]
      exact g2 δ₁ p₁
    · intro rs ps
      rw [List.foldl_cons, h2 rs ps, g2 (rs ++ δ₁) (ps ++ p₁)]
      simp [List.append_assoc]
    · intro r hr
      rcases List.mem_append.mp hr with hr | hr
      · exact h3 r hr
      · exact g3 r hr
    · rw [h4, g4]
      cases u <;> simp [pingIds]

theorem applyUpdate_delete_makes_absent (sid rid : String) (acc : UpdateAcc)
    (tid : String) :
    (applyUpdate sid rid acc (Action.delete tid)).room.game_state.lookup tid
      = none := by
  cases hl : acc.room.game_state.lookup tid with
  | none => simp [applyUpdate, hl]
  | some e =>
    simp only [applyUpdate, hl, Room.delete_token]
    exact lookup_dictDelete_self _ _

theorem applyUpdate_delete_keeps_absent (sid rid : String) (acc : UpdateAcc)
    (tid pid : String) (h : acc.room.game_state.lookup pid = none) :
    (applyUpdate sid rid acc (Action.delete tid)).room.game_state.lookup pid
      = none := by
  cases hl : acc.room.game_state.lookup tid with
  | none => simpa [applyUpdate, hl] using h
  | some e =>
    simp only [applyUpdate, hl, Room.delete_token]
    by_cases hpt : pid = tid
    · subst hpt
      exact lookup_dictDelete_self _ _
    · rw [lookup_dictDelete_ne _ _ _ hpt]
      exact h

/-- Folding a list of delete actions leaves every id of the list (and every
id that was already absent) absent from the room. -/
theorem foldl_deletes_absent (sid rid : String) (ids : List String) :
    ∀ (acc : UpdateAcc) (pid : String),
      (pid ∈ ids ∨ acc.room.game_state.lookup pid = none) →
      (((ids.map Action.delete).foldl (applyUpdate sid rid) acc).room.game_state.lookup pid
        = none) := by
  induction ids with
  | nil =>
    intro acc pid h
    rcases h with h | h
    · simp at h
    · simpa using h
  | cons t rest ih =>
    intro acc pid h
    simp only [List.map_cons, List.foldl_cons]
    by_cases hpt : pid = t
    · subst hpt
      exact ih _ pid (Or.inr (applyUpdate_delete_makes_absent sid rid acc pid))
    · rcases h with h | h
      · rcases List.mem_cons.mp h with rfl | hm
        · exact absurd rfl hpt
        · exact ih _ pid (Or.inl hm)
      · exact ih _ pid (Or.inr (applyUpdate_delete_keeps_absent sid rid acc t pid h))

theorem hasRequestId_of_ne (rid : String) (us : List Action) (h : rid ≠ "") :
    Request.hasRequestId ⟨some rid, us⟩ = true := by
  simp only [Request.hasRequestId, bne_iff_ne]
  exact h

/-- C10: a request from the change feed whose request id is `None` or the
empty string produces no response at all and leaves the local room state
unchanged: no update of the request (create, update, delete or ping) is
applied and no ping expiry is scheduled. -/
theorem processRequest_empty_request_id (room : Room) (sid : String)
    (req : Request) (h : req.hasRequestId = false) :
    processRequest room sid req = ⟨room, [], [], none⟩ := by
  simp [processRequest, h]

/-- C10 witness: a delete and a ping are silently dropped both under an
empty request id and under a missing one. -/
theorem processRequest_empty_request_id_witness :
    processRequest roomWithToken "sess"
        ⟨some "", [Action.delete "t1", Action.ping samplePing]⟩
      = ⟨roomWithToken, [], [], none⟩ ∧
    processRequest roomWithToken "sess" ⟨none, [Action.delete "t1"]⟩
      = ⟨roomWithToken, [], [], none⟩ :=
  ⟨processRequest_empty_request_id roomWithToken "sess"
      ⟨some "", [Action.delete "t1", Action.ping samplePing]⟩ (by decide),
   processRequest_empty_request_id roomWithToken "sess"
      ⟨none, [Action.delete "t1"]⟩ rfl⟩

/-- C3: for every feed request with a non-empty request id, the emitted
responses are the per-update error responses first, followed by exactly one
`StateResponse` carrying the request's id and the full snapshot of the
room's current entities (not a delta). -/
theorem processRequest_errors_then_single_state (room : Room) (sid : String)
    (req : Request) (h : req.hasRequestId = true) :
    ∃ errs, (processRequest room sid req).responses
        = errs ++ [Response.state (processRequest room sid req).room.snapshot
            (req.request_id.getD "")] ∧
      ∀ r ∈ errs, r.isError = true := by
  obtain ⟨room', δr, δp, g1, g2, g3, g4⟩ :=
    foldl_applyUpdate_shape sid (req.request_id.getD "") req.updates room
  refine ⟨δr, ?_, g3⟩
  simp [processRequest, h, g1]

/-- C3 witness: one create in a fresh room yields no errors and a single
state response with the full snapshot. -/
theorem processRequest_errors_then_single_state_witness :
    ∃ errs, (processRequest emptyRoom "sess"
          ⟨some "r1", [Action.createOrUpdate sampleToken]⟩).responses
        = errs ++ [Response.state (processRequest emptyRoom "sess"
            ⟨some "r1", [Action.createOrUpdate sampleToken]⟩).room.snapshot
            ((some "r1").getD "")] ∧
      ∀ r ∈ errs, r.isError = true :=
  processRequest_errors_then_single_state emptyRoom "sess"
    ⟨some "r1", [Action.createOrUpdate sampleToken]⟩ (by decide)

/-- C2 (amended): a create/update whose token fails `is_valid_position`
emits exactly `ErrorResponse("That position is occupied, bucko",
request_id, session_id)` (note the message), the token is not applied to
the room, and the remaining updates of the request are still processed
against the current state: processing `pre ++ [createOrUpdate tok] ++ post`
equals processing `pre`, emitting the error, then processing `post` from
the state reached after `pre`. -/
theorem processRequest_occupied_behaviour (room : Room) (sid rid : String)
    (pre post : List Action) (tok : Token) (hrid : rid ≠ "")
    (hinv : (pre.foldl (applyUpdate sid rid)
        ⟨room, [], []⟩).room.is_valid_position tok = false) :
    (processRequest room sid
        ⟨some rid, pre ++ Action.createOrUpdate tok :: post⟩).room
      = (processRequest (pre.foldl (applyUpdate sid rid) ⟨room, [], []⟩).room
          sid ⟨some rid, post⟩).room ∧
    (processRequest room sid
        ⟨some rid, pre ++ Action.createOrUpdate tok :: post⟩).responses
      = (pre.foldl (applyUpdate sid rid) ⟨room, [], []⟩).responses
        ++ Response.error "That position is occupied, bucko" rid sid
        :: (processRequest (pre.foldl (applyUpdate sid rid) ⟨room, [], []⟩).room
            sid ⟨some rid, post⟩).responses ∧
    (processRequest room sid
        ⟨some rid, pre ++ Action.createOrUpdate tok :: post⟩).pings_created
      = (pre.foldl (applyUpdate sid rid) ⟨room, [], []⟩).pings_created
        ++ (processRequest (pre.foldl (applyUpdate sid rid) ⟨room, [], []⟩).room
            sid ⟨some rid, post⟩).pings_created := by
  have htr1 : Request.hasRequestId
      ⟨some rid, pre ++ Action.createOrUpdate tok :: post⟩ = true :=
    hasRequestId_of_ne rid _ hrid
  have htr2 : Request.hasRequestId ⟨some rid, post⟩ = true :=
    hasRequestId_of_ne rid _ hrid
  obtain ⟨rm, δm, pm, m1, m2, m3, m4⟩ := foldl_applyUpdate_shape sid rid pre room
  have hinv' : rm.is_valid_position tok = false := by
    rw [m1] at hinv
    simpa using hinv
  have hstep : applyUpdate sid rid ⟨rm, δm, pm⟩ (Action.createOrUpdate tok)
      = ⟨rm, δm ++ [Response.error "That position is occupied, bucko" rid sid], pm⟩ := by
    simp [applyUpdate, hinv']
  obtain ⟨r₂, δ₂, p₂, q1, q2, q3, q4⟩ := foldl_applyUpdate_shape sid rid post rm
  have hfold : (pre ++ Action.createOrUpdate tok :: post).foldl
        (applyUpdate sid rid) ⟨room, [], []⟩
      = ⟨r₂, (δm ++ [Response.error "That position is occupied, bucko" rid sid]) ++ δ₂,
         pm ++ p₂⟩ := by
    rw [List.foldl_append, m1, List.foldl_cons, hstep,
      q2 (δm ++ [Response.error "That position is occupied, bucko" rid sid]) pm]
  refine ⟨?_, ?_, ?_⟩ <;>
    simp [processRequest, htr1, htr2, hfold, q1, m1]

/-- C2 counterexample: on a room occupied by `sampleToken`, creating the
overlapping `overlapToken` emits the message
"That position is occupied, bucko" — not "That position is occupied" as the
claim states — followed by the unchanged-state response. -/
theorem occupied_message_counterexample :
    (processRequest roomWithToken "sess"
        ⟨some "bad", [Action.createOrUpdate overlapToken]⟩).responses
      = [Response.error "That position is occupied, bucko" "bad" "sess",
         Response.state [Entity.token sampleToken] "bad"] ∧
    Response.error "That position is occupied" "bad" "sess"
      ∉ (processRequest roomWithToken "sess"
          ⟨some "bad", [Action.createOrUpdate overlapToken]⟩).responses := by
  constructor <;> decide

/-- C2 witness: the amended behaviour at a concrete occupied position. -/
theorem processRequest_occupied_behaviour_witness :
    (processRequest roomWithToken "sess"
        ⟨some "bad", [Action.createOrUpdate overlapToken]⟩).responses
      = Response.error "That position is occupied, bucko" "bad" "sess"
        :: (processRequest roomWithToken "sess"
            ⟨some "bad", ([] : List Action)⟩).responses := by
  have h := processRequest_occupied_behaviour roomWithToken "sess" "bad" [] []
    overlapToken (by decide) (by decide)
  simpa using h.2.1

/-- C6: a request containing a ping places the ping in the room immediately;
the created ping ids are exactly the ids of the request's ping updates (in
order); a follow-up is scheduled after `PING_LENGTH_SECS = 3` seconds whose
request carries the same request id and consists of delete actions for
exactly those ping ids; and processing that follow-up request removes every
one of those pings from the room, so the subsequent state response no
longer contains them. -/
theorem processRequest_ping_expiry (room r2 : Room) (sid sid2 rid : String)
    (pre post : List Action) (p : Ping) (hrid : rid ≠ "") :
    ((pre ++ [Action.ping p]).foldl (applyUpdate sid rid)
        ⟨room, [], []⟩).room.game_state.lookup p.id = some (Entity.ping p) ∧
    (processRequest room sid
        ⟨some rid, pre ++ Action.ping p :: post⟩).pings_created
      = pingIds (pre ++ Action.ping p :: post) ∧
    (processRequest room sid
        ⟨some rid, pre ++ Action.ping p :: post⟩).pings_created ≠ [] ∧
    (processRequest room sid ⟨some rid, pre ++ Action.ping p :: post⟩).scheduled
      = some (PING_LENGTH_SECS, expirePingsRequest rid
          (processRequest room sid
            ⟨some rid, pre ++ Action.ping p :: post⟩).pings_created) ∧
    (expirePingsRequest rid (processRequest room sid
        ⟨some rid, pre ++ Action.ping p :: post⟩).pings_created).request_id
      = some rid ∧
    ∀ pid ∈ (processRequest room sid
        ⟨some rid, pre ++ Action.ping p :: post⟩).pings_created,
      (processRequest r2 sid2 (expirePingsRequest rid
          (processRequest room sid
            ⟨some rid, pre ++ Action.ping p :: post⟩).pings_created)).room.game_state.lookup pid
        = none := by
  have htr : Request.hasRequestId ⟨some rid, pre ++ Action.ping p :: post⟩ = true :=
    hasRequestId_of_ne rid _ hrid
  obtain ⟨rm, δm, pm, m1, m2, m3, m4⟩ := foldl_applyUpdate_shape sid rid pre room
  obtain ⟨R', ΔR, ΔP, f1, f2, f3, f4⟩ :=
    foldl_applyUpdate_shape sid rid (pre ++ Action.ping p :: post) room
  have hmem : p.id ∈ pingIds (pre ++ Action.ping p :: post) :=
    List.mem_filterMap.mpr ⟨Action.ping p, by simp, rfl⟩
  have hne : ΔP ≠ [] := by
    rw [f4]
    exact List.ne_nil_of_mem hmem
  have hie : ΔP.isEmpty = false := by
    cases hq : ΔP.isEmpty
    · rfl
    · exact absurd (List.isEmpty_iff.mp hq) hne
  refine ⟨?_, ?_, ?_, ?_, rfl, ?_⟩
  · rw [List.foldl_append, m1]
    simp only [List.foldl_cons, List.foldl_nil, applyUpdate, Room.create_ping]
    exact lookup_dictSet rm.game_state p.id (Entity.ping p)
  · simp [processRequest, htr, f1, f4]
  · have hpc : (processRequest room sid
        ⟨some rid, pre ++ Action.ping p :: post⟩).pings_created = ΔP := by
      simp [processRequest, htr, f1]
    rw [hpc]
    exact hne
  · simp [processRequest, htr, f1, hie]
  · intro pid hpid
    have hpc : (processRequest room sid
        ⟨some rid, pre ++ Action.ping p :: post⟩).pings_created = ΔP := by
      simp [processRequest, htr, f1]
    rw [hpc] at hpid ⊢
    rw [show expirePingsRequest rid ΔP
      = (⟨some rid, ΔP.map Action.delete⟩ : Request) from rfl]
    have htr4 : Request.hasRequestId ⟨some rid, ΔP.map Action.delete⟩ = true :=
      hasRequestId_of_ne rid _ hrid
    have hroom2 : (processRequest r2 sid2 ⟨some rid, ΔP.map Action.delete⟩).room
        = ((ΔP.map Action.delete).foldl (applyUpdate sid2 rid) ⟨r2, [], []⟩).room := by
      simp [processRequest, htr4]
    rw [hroom2]
    exact foldl_deletes_absent sid2 rid ΔP ⟨r2, [], []⟩ pid (Or.inl hpid)

/-- C6 witness: a single ping request in a fresh room records the ping id
and schedules the 3-second expiry request. -/
theorem processRequest_ping_expiry_witness :
    (processRequest emptyRoom "sess"
        ⟨some "r1", [] ++ Action.ping samplePing :: []⟩).pings_created
      = pingIds ([] ++ Action.ping samplePing :: []) ∧
    (processRequest emptyRoom "sess"
        ⟨some "r1", [] ++ Action.ping samplePing :: []⟩).scheduled
      = some (PING_LENGTH_SECS, expirePingsRequest "r1"
          (processRequest emptyRoom "sess"
            ⟨some "r1", [] ++ Action.ping samplePing :: []⟩).pings_created) := by
  have h := processRequest_ping_expiry emptyRoom emptyRoom "sess" "sess2" "r1"
    [] [] samplePing (by decide)
  exact ⟨h.2.1, h.2.2.2.1⟩

/-- C8: when `handle_connection` reaches its cleanup block, the listener
queue is removed from the room's fan-out list; afterwards the room id is
present in `_room_context_by_id` iff at least one other listener queue
remains, and exactly when the last queue was removed the change-listener
task is cancelled and the room context evicted. -/
theorem handle_connection_cleanup (m : List (String × RoomCtxState))
    (room_id : String) (q : Nat) (ctx : RoomCtxState)
    (h : m.lookup room_id = some ctx) (_hq : q ∈ ctx.output_queues) :
    ∃ m' cancelled, cleanupListener m room_id q = some (m', cancelled) ∧
      ((m'.lookup room_id).isSome ↔ ctx.output_queues.erase q ≠ []) ∧
      (cancelled = true ↔ ctx.output_queues.erase q = []) ∧
      (ctx.output_queues.erase q ≠ [] →
        m'.lookup room_id = some ⟨ctx.output_queues.erase q, ctx.task_alive⟩) := by
  by_cases he : (ctx.output_queues.erase q).isEmpty = true
  · have hnil : ctx.output_queues.erase q = [] := List.isEmpty_iff.mp he
    refine ⟨dictDelete m room_id, true, ?_, ?_, ?_, ?_⟩
    · simp [cleanupListener, h, he]
    · rw [lookup_dictDelete_self]
      simp [hnil]
    · simp [hnil]
    · intro hcon
      exact absurd hnil hcon
  · have hne : ctx.output_queues.erase q ≠ [] := by
      intro hnil
      rw [hnil] at he
      exact he rfl
    refine ⟨dictSet m room_id ⟨ctx.output_queues.erase q, ctx.task_alive⟩, false,
      ?_, ?_, ?_, ?_⟩
    · simp [cleanupListener, h, he]
    · rw [lookup_dictSet]
      simp [hne]
    · simp [hne]
    · intro _
      exact lookup_dictSet m room_id ⟨ctx.output_queues.erase q, ctx.task_alive⟩

/-- C8 witness: removing queue 1 of two leaves the context with queue 2 and
the task running; the map still contains the room. -/
theorem handle_connection_cleanup_witness :
    ∃ m' cancelled,
      cleanupListener [("room1", ⟨[1, 2], true⟩)] "room1" 1 = some (m', cancelled) ∧
      ((m'.lookup "room1").isSome ↔
        (RoomCtxState.mk [1, 2] true).output_queues.erase 1 ≠ []) ∧
      (cancelled = true ↔ (RoomCtxState.mk [1, 2] true).output_queues.erase 1 = []) ∧
      ((RoomCtxState.mk [1, 2] true).output_queues.erase 1 ≠ [] →
        m'.lookup "room1" = some ⟨(RoomCtxState.mk [1, 2] true).output_queues.erase 1,
          (RoomCtxState.mk [1, 2] true).task_alive⟩) :=
  handle_connection_cleanup [("room1", ⟨[1, 2], true⟩)] "room1" 1 ⟨[1, 2], true⟩
    (by decide) (by decide)

/-- C9 counterexample: `is_valid_uuid` accepts a 32-hex-digit string with no
hyphens at all (version nibble `4`, variant nibble `8`), which is not the
canonical hex-and-hyphen textual form, so "returns True only if canonical"
fails. -/
theorem is_valid_uuid_accepts_hyphenless :
    is_valid_uuid hyphenlessUuid = true ∧
    isCanonicalUuid4String hyphenlessUuid = false := by
  constructor <;> decide

/-- C7: whenever the connection path, after stripping leading slashes, is not
accepted by `is_valid_uuid`, `connection_handler` closes the connection with
`ERR_INVALID_UUID` and performs no further step: the trace is exactly the
close, with no accept, no registration and no hand-off to the game state
server. -/
theorem connection_handler_rejects_invalid_uuid (path : List Char)
    (h : is_valid_uuid (path.dropWhile (fun c => c == '/')) = false) :
    connection_handler_trace path
      = [HandlerStep.close CloseCode.ERR_INVALID_UUID] ∧
    HandlerStep.accept ∉ connection_handler_trace path ∧
    HandlerStep.register ∉ connection_handler_trace path ∧
    ∀ room_id, HandlerStep.handle room_id ∉ connection_handler_trace path := by
  have htrace : connection_handler_trace path
      = [HandlerStep.close CloseCode.ERR_INVALID_UUID] := by
    simp [connection_handler_trace, h]
  refine ⟨htrace, ?_, ?_, ?_⟩ <;> simp [htrace]

/-- C7 witness: the path `/not-a-uuid` is rejected with `ERR_INVALID_UUID`. -/
theorem connection_handler_rejects_invalid_uuid_witness :
    connection_handler_trace ['/', 'n', 'o', 't', '-', 'a', '-', 'u', 'u', 'i', 'd']
      = [HandlerStep.close CloseCode.ERR_INVALID_UUID] :=
  (connection_handler_rejects_invalid_uuid
    ['/', 'n', 'o', 't', '-', 'a', '-', 'u', 'u', 'i', 'd'] (by decide)).1

/-- C4 witness: the amended read contract evaluated on a one-room in-memory
store and a one-file file store with the identity as `abspath`. -/
theorem read_room_data_spec_witness :
    (MemoryRoomStore.read_room_data ⟨"store", [("r", 7)]⟩ "r" = Except.ok (some 7)) ∧
    (FileRoomStore.read_room_data id ⟨"store", [("store/r", 7)]⟩ "r"
      = Except.ok (some 7)) := by
  have h := read_room_data_spec (α := Nat) ⟨"store", [("r", 7)]⟩
    ⟨"store", [("store/r", 7)]⟩ id "r"
  exact ⟨h.1 7 (by decide), h.2.2.1 7 (by decide) (by decide)⟩

end TTBud
